import Mathlib

/-!
Verification development for the live audio/vision streaming overlay of the
Kaal-AI-BOT repository.

The embedding translates the `VoiceOverlay` component (source file
`src/unnamed/part_000`) and the byte-level helpers of the service module
(`src/unnamed/part_001`, functions `encodeBase64`, `decodeBase64`,
`decodePCM`) into executable Lean definitions.

Modelling conventions:
* The component's mutable refs and React state become fields of an explicit
  record `VoiceState`; each browser / SDK callback becomes a case of an
  explicit `Event` acted on by a total `step` function.  The UI thread is
  single-threaded and cooperative, so each handler body is modelled as one
  atomic state transition, in the exact statement order of the source.
* Times (`AudioContext.currentTime`, buffer durations, `nextStartTime`) are
  exact rationals; binary floating-point arithmetic of the source is modelled
  by exact arithmetic over `ℚ`.
* Opaque browser objects (session ids minted by `crypto.randomUUID()`, media
  streams, audio contexts, interval timer handles) are modelled by `Nat`
  identifiers; an inbound audio chunk is abstracted to the duration of its
  decoded buffer, which is the only datum the scheduler reads.
* JavaScript's `btoa`/`atob` (standard base64 of a latin-1 string, RFC 4648)
  and the `TypedArray` conversions (`ToInt16` truncation with wrap-around,
  little-endian buffer reinterpretation) are external platform primitives;
  they are modelled by their documented semantics.
-/

namespace KaalBot

/-- UI status enumeration, from
`useState<'connecting' | 'listening' | 'speaking' | 'error'>` (part_000 line 19). -/
inductive Status where
  | connecting
  | listening
  | speaking
  | error
  deriving DecidableEq, Repr

/-- One `AudioBufferSourceNode` created for an inbound audio chunk
(part_000 lines 173-182): its scheduled start time (`source.start(t)`),
its buffer duration, and the output-clock time at which `stop()` was called
on it, if ever. -/
structure SrcNode where
  startTime : ℚ
  duration : ℚ
  stoppedAt : Option ℚ
  deriving DecidableEq, Repr

/-- A node is audible iff it ever produces sound: a node never stopped plays
in full, and a node stopped at clock time `t` produces sound only if playback
had already begun, i.e. its scheduled start lies strictly before `t`
(Web Audio `stop()` semantics). -/
def audible (n : SrcNode) : Prop :=
  match n.stoppedAt with
  | none => True
  | some t => n.startTime < t

instance (n : SrcNode) : Decidable (audible n) := by
  unfold audible
  cases n.stoppedAt with
  | none => exact inferInstanceAs (Decidable True)
  | some t => exact inferInstanceAs (Decidable (_ < _))

/-- The mutable state of the `VoiceOverlay` component: the React `useState`
cells and `useRef` cells of part_000 lines 19-36 that the live-session logic
reads and writes.  `activeTimers` models which interval timers are currently
registered with the browser (`window.setInterval` / `window.clearInterval`);
`frameInterval` is the ref cell `frameIntervalRef` holding the last timer id.
`flushed` records the source nodes that have left the Active Source Set
(`sourcesRef`), so that their stop times remain observable. -/
structure VoiceState where
  activeToken : Option Nat
  status : Status
  isConnected : Bool
  inputCtx : Option Nat
  outputCtx : Option Nat
  mediaStream : Option Nat
  frameInterval : Option Nat
  activeTimers : List Nat
  sources : List SrcNode
  flushed : List SrcNode
  nextStartTime : ℚ
  detectedLang : List Char
  inputTranscript : List Char
  outputTranscript : List Char
  deriving DecidableEq, Repr

/-- The component's initial state: `useState` initial values
(status `'connecting'`, `isConnected` false, transcripts empty, detected
language `'AUTO'`) and `useRef` initial values (empty source set, cursor 0,
no token, no stream, no contexts, no timer). -/
def initialState : VoiceState where
  activeToken := none
  status := Status.connecting
  isConnected := false
  inputCtx := none
  outputCtx := none
  mediaStream := none
  frameInterval := none
  activeTimers := []
  sources := []
  flushed := []
  nextStartTime := 0
  detectedLang := ['A', 'U', 'T', 'O']
  inputTranscript := []
  outputTranscript := []

/-- Uppercase ASCII letter, the `[A-Z]` character class of the regexes in
`parseLang` (part_000 lines 39 and 42). -/
def jsUpper (c : Char) : Bool :=
  'A' ≤ c && c ≤ 'Z'

/-- The `\s` character class of the regex `/^\[[A-Z]{2}\]\s*/`
(part_000 line 42), restricted to the ASCII whitespace characters. -/
def jsSpace (c : Char) : Bool :=
  c = ' ' || c = '\t' || c = '\n' || c = '\r' || c = '\x0b' || c = '\x0c'

/-- `parseLang` (part_000 lines 38-45): if the text matches
`/^\[([A-Z]{2})\]/`, return the captured two-letter code and the text with
`/^\[[A-Z]{2}\]\s*/` removed (the tag plus any directly following whitespace
run, `\s*` being greedy); otherwise return no code and the text unchanged. -/
def parseLang (text : List Char) : Option (List Char) × List Char :=
  match text with
  | '[' :: a :: b :: ']' :: rest =>
      if jsUpper a && jsUpper b then (some [a, b], rest.dropWhile jsSpace)
      else (none, text)
  | _ => (none, text)

/-- The fields of a `LiveServerMessage` that the `onmessage` handler of
part_000 lines 155-189 reads: the two optional transcription delta texts,
the `turnComplete` flag, an optional inbound audio chunk (abstracted to the
duration of its decoded buffer), and the `interrupted` flag. -/
structure LiveMsg where
  inputTranscription : Option (List Char)
  outputTranscription : Option (List Char)
  turnComplete : Bool
  audioChunk : Option ℚ
  interrupted : Bool
  deriving DecidableEq, Repr

/-- Lines 158-161 of part_000: if the message carries an input-transcription
delta, run it through `parseLang`, record the detected language when a tag was
found (`setDetectedLang`), and append the cleaned text to the input
transcript accumulator. -/
def applyInputDelta (msg : LiveMsg) (s : VoiceState) : VoiceState :=
  match msg.inputTranscription with
  | none => s
  | some t =>
      let p := parseLang t
      { s with
        detectedLang := p.1.getD s.detectedLang
        inputTranscript := s.inputTranscript ++ p.2 }

/-- Lines 162-165 of part_000: same treatment for an output-transcription
delta, appending to the output transcript accumulator. -/
def applyOutputDelta (msg : LiveMsg) (s : VoiceState) : VoiceState :=
  match msg.outputTranscription with
  | none => s
  | some t =>
      let p := parseLang t
      { s with
        detectedLang := p.1.getD s.detectedLang
        outputTranscript := s.outputTranscript ++ p.2 }

/-- Line 166 of part_000: on `turnComplete`, clear both transcript
accumulators. -/
def applyTurnComplete (msg : LiveMsg) (s : VoiceState) : VoiceState :=
  if msg.turnComplete then { s with inputTranscript := [], outputTranscript := [] }
  else s

/-- Lines 168-183 of part_000, the Playback Scheduler: when the message
carries inline audio data, set status to speaking, raise the cursor to the
current output-clock time if it has fallen behind
(`nextStartTime = max(nextStartTime, outputCtx.currentTime)`), schedule a new
source node to start exactly at the cursor, advance the cursor by the decoded
buffer's duration, and add the node to the Active Source Set. -/
def applyAudioChunk (now : ℚ) (msg : LiveMsg) (s : VoiceState) : VoiceState :=
  match msg.audioChunk with
  | none => s
  | some d =>
      let start := max s.nextStartTime now
      { s with
        status := Status.speaking
        nextStartTime := start + d
        sources := s.sources ++ [⟨start, d, none⟩] }

/-- Record that `stop()` was called on a node at output-clock time `now`. -/
def stopAt (now : ℚ) (n : SrcNode) : SrcNode :=
  { n with stoppedAt := some now }

/-- Lines 184-189 of part_000: on the `interrupted` flag, call `stop()` on
every node of the Active Source Set, clear the set, reset the cursor
`nextStartTime` to `0`, and set status to listening. -/
def applyInterrupted (now : ℚ) (msg : LiveMsg) (s : VoiceState) : VoiceState :=
  if msg.interrupted then
    { s with
      sources := []
      flushed := s.flushed ++ s.sources.map (stopAt now)
      nextStartTime := 0
      status := Status.listening }
  else s

/-- The body of the `onmessage` callback (part_000 lines 155-189) after its
token guard, in source statement order: transcription deltas, turn-complete,
audio chunk, interruption.  `now` is `outputCtx.currentTime` at handling. -/
def handleMessage (now : ℚ) (msg : LiveMsg) (s : VoiceState) : VoiceState :=
  applyInterrupted now msg
    (applyAudioChunk now msg
      (applyTurnComplete msg
        (applyOutputDelta msg
          (applyInputDelta msg s))))

/-- The asynchronous callbacks that mutate `VoiceState`.  Token parameters are
the `sessionId` captured by the closure at registration time.  `onOpen` and
`onMessage` (part_000 lines 107, 155) carry their captured token because their
bodies compare it; `onError` and `onClose` (lines 191-192) and the
`source.onended` closure (lines 176-179) perform no comparison.
`sourceEnded i` is the `onended` callback of the `i`-th node currently in the
Active Source Set (`Set` iteration order is insertion order). -/
inductive Event where
  | onOpen (tok : Nat)
  | onMessage (tok : Nat) (now : ℚ) (msg : LiveMsg)
  | onError (tok : Nat)
  | onClose (tok : Nat)
  | sourceEnded (i : Nat)
  deriving DecidableEq, Repr

/-- One callback dispatch.
`onOpen` (lines 107-110): if the captured token is still active, mark
connected and set status listening.
`onMessage` (lines 155-189): if the captured token is still active, run
`handleMessage`; otherwise do nothing.
`onError` (line 191): `setStatus('error')`, with no token check.
`onClose` (line 192): `setIsConnected(false)`, with no token check.
`sourceEnded i` (lines 176-179): delete the node from the Active Source Set
(a no-op when it is no longer there) and, if the set is now empty, set status
listening; no token check. -/
def step (s : VoiceState) : Event → VoiceState
  | Event.onOpen tok =>
      if s.activeToken = some tok then
        { s with isConnected := true, status := Status.listening }
      else s
  | Event.onMessage tok now msg =>
      if s.activeToken = some tok then handleMessage now msg s else s
  | Event.onError _ => { s with status := Status.error }
  | Event.onClose _ => { s with isConnected := false }
  | Event.sourceEnded i =>
      let rest := s.sources.eraseIdx i
      { s with
        sources := rest
        flushed := s.flushed ++ (match s.sources[i]? with
          | some n => [n]
          | none => [])
        status := if rest.isEmpty then Status.listening else s.status }

/-- `cleanup` (part_000 lines 47-60), in source order: null the active token;
if the frame-interval ref holds a timer id, clear that timer (the ref itself
is never nulled); stop the media tracks and null the stream ref; call
`stop()` on every node of the Active Source Set and clear it; close and drop
both audio contexts; set `isConnected` false.  Status, cursor, transcripts
and detected language are not touched.  `now` is the output-clock time at
which the stops take effect. -/
def cleanupState (now : ℚ) (s : VoiceState) : VoiceState :=
  { s with
    activeToken := none
    activeTimers := match s.frameInterval with
      | some id => s.activeTimers.filter (fun t => t ≠ id)
      | none => s.activeTimers
    mediaStream := none
    sources := []
    flushed := s.flushed ++ s.sources.map (stopAt now)
    inputCtx := none
    outputCtx := none
    isConnected := false }

/-- The synchronous prefix of `connect` (part_000 lines 62-68): await
`cleanup()`, mint a fresh session id and install it as the active token, and
set status connecting.  (Resource acquisition for the new session follows
asynchronously and is not needed by the claims.) -/
def connectStart (now : ℚ) (s : VoiceState) (tok : Nat) : VoiceState :=
  { cleanupState now s with activeToken := some tok, status := Status.connecting }

/-- A `LiveServerMessage` carrying only inline audio data whose decoded
buffer has duration `d`. -/
def audioMsg (d : ℚ) : LiveMsg where
  inputTranscription := none
  outputTranscription := none
  turnComplete := false
  audioChunk := some d
  interrupted := false

/-- A `LiveServerMessage` carrying only the `interrupted` signal. -/
def interruptMsg : LiveMsg where
  inputTranscription := none
  outputTranscription := none
  turnComplete := false
  audioChunk := none
  interrupted := true

/-- Deliver a sequence of inbound audio chunks to the component:
`chunks` lists, in arrival order, the output-clock time at which each chunk
is handled and the duration of its decoded buffer. -/
def playAudioRun (tok : Nat) (s : VoiceState) (chunks : List (ℚ × ℚ)) : VoiceState :=
  chunks.foldl (fun st c => step st (Event.onMessage tok c.1 (audioMsg c.2))) s

/-- The source nodes the scheduler of part_000 lines 171-181 creates for a
chunk sequence, starting from cursor position `next`: each chunk starts at
`max next now` and the cursor advances by its duration. -/
def scheduleSources (next : ℚ) : List (ℚ × ℚ) → List SrcNode
  | [] => []
  | c :: rest =>
      ⟨max next c.1, c.2, none⟩ :: scheduleSources (max next c.1 + c.2) rest

/-- True iff the handler for an event writes the UI status when dispatched in
state `s` (every status write in part_000 other than `setStatus('error')`):
a live `onopen` writes listening; a live `onmessage` writes speaking on an
audio chunk and listening on an interruption; a `source.onended` that leaves
the Active Source Set empty writes listening. -/
def overridesError (s : VoiceState) : Event → Bool
  | Event.onOpen tok => s.activeToken == some tok
  | Event.onMessage tok _ msg =>
      s.activeToken == some tok && (msg.audioChunk.isSome || msg.interrupted)
  | Event.onError _ => false
  | Event.onClose _ => false
  | Event.sourceEnded i => (s.sources.eraseIdx i).isEmpty

/-- Whether a transcript delta begins with a bracketed two-uppercase-letter
language tag, i.e. whether `/^\[([A-Z]{2})\]/` of part_000 line 39 matches. -/
def hasLangTag (t : List Char) : Bool :=
  match t with
  | '[' :: a :: b :: ']' :: _ => jsUpper a && jsUpper b
  | _ => false

/-- JavaScript truncation toward zero (`ToIntegerOrInfinity`), the first step
of a `TypedArray` element conversion applied to a number. -/
def jsTrunc (q : ℚ) : ℤ :=
  if 0 ≤ q then ⌊q⌋ else ⌈q⌉

/-- JavaScript `ToInt16`: reduce modulo 2^16 into the signed 16-bit range
`[-32768, 32767]` (wrap-around). -/
def toInt16 (n : ℤ) : ℤ :=
  (n + 32768) % 65536 - 32768

/-- One sample of the capture encoding of part_000 line 123:
`new Int16Array(inputData.map(v => v * 32767))` scales the floating-point
sample by 32767 and converts it to a signed 16-bit element (truncation toward
zero, then wrap-around), modelled exactly over `ℚ`. -/
def encodeSample (v : ℚ) : ℤ :=
  toInt16 (jsTrunc (v * 32767))

/-- Little-endian byte pair of a signed 16-bit value, as produced by viewing
an `Int16Array`'s buffer through `new Uint8Array(...)` (part_000 line 123). -/
def int16ToBytes (n : ℤ) : List ℕ :=
  [(n % 256).toNat, (n % 65536 / 256).toNat]

/-- The full capture-side frame encoding (part_000 line 123): scale and
convert each sample to Int16, then lay the elements out as little-endian
bytes. -/
def encodeFrame (frame : List ℚ) : List ℕ :=
  (frame.map encodeSample).flatMap int16ToBytes

/-- Reinterpret a little-endian byte pair as a signed 16-bit value, as
`new Int16Array(data.buffer)` does (part_001 line 185). -/
def bytesToInt16 (lo hi : ℕ) : ℤ :=
  if hi * 256 + lo < 32768 then (hi * 256 + lo : ℤ)
  else (hi * 256 + lo : ℤ) - 65536

/-- `decodePCM` (part_001 lines 179-195) for one mono channel: view the byte
buffer as signed 16-bit values and divide each by 32768.0 to recover
floating-point samples. -/
def decodePCM : List ℕ → List ℚ
  | lo :: hi :: rest => ((bytesToInt16 lo hi : ℚ) / 32768) :: decodePCM rest
  | _ => []

/-- The standard base64 alphabet used by `btoa`/`atob` (RFC 4648). -/
def b64Alphabet : List Char :=
  "ABCDEFGHIJKLMNOPQRSTUVWXYZabcdefghijklmnopqrstuvwxyz0123456789+/".toList

/-- Character for a six-bit group. -/
def b64Char (n : ℕ) : Char :=
  b64Alphabet.getD n 'A'

/-- Index of a base64 character in the alphabet. -/
def b64Index (c : Char) : ℕ :=
  b64Alphabet.findIdx (fun x => x = c)

/-- `encodeBase64` (part_001 lines 170-177): build the latin-1 string whose
char codes are the bytes and apply `btoa`.  Modelled at the byte level by
RFC 4648 base64 with `=` padding: three bytes become four sextet characters;
a trailing byte or byte pair is padded. -/
def encodeBase64 : List ℕ → List Char
  | [] => []
  | [a] => [b64Char (a / 4), b64Char (a % 4 * 16), '=', '=']
  | [a, b] => [b64Char (a / 4), b64Char (a % 4 * 16 + b / 16), b64Char (b % 16 * 4), '=']
  | a :: b :: c :: rest =>
      b64Char (a / 4) :: b64Char (a % 4 * 16 + b / 16) ::
        b64Char (b % 16 * 4 + c / 64) :: b64Char (c % 64) :: encodeBase64 rest

/-- `decodeBase64` (part_001 lines 160-168): apply `atob` and read the char
codes back into bytes.  Modelled at the byte level by RFC 4648 base64
decoding: each four-character group yields three bytes, or fewer at the final
padded group. -/
def decodeBase64 : List Char → List ℕ
  | c1 :: c2 :: c3 :: c4 :: rest =>
      if c3 = '=' then [b64Index c1 * 4 + b64Index c2 / 16]
      else if c4 = '=' then
        [b64Index c1 * 4 + b64Index c2 / 16, b64Index c2 % 16 * 16 + b64Index c3 / 4]
      else
        (b64Index c1 * 4 + b64Index c2 / 16) ::
          (b64Index c2 % 16 * 16 + b64Index c3 / 4) ::
          (b64Index c3 % 4 * 64 + b64Index c4) :: decodeBase64 rest
  | _ => []

/-- The inputs the frame-sampler timer tick of part_000 lines 133-137 reads:
the currently active token, the session token captured by the closure,
whether the video and canvas elements are mounted, and the video element's
`readyState`. -/
structure TickInput where
  activeToken : Option Nat
  sessionToken : Nat
  hasVideo : Bool
  hasCanvas : Bool
  readyState : Nat
  deriving DecidableEq, Repr

/-- An in-flight frame capture as configured by part_000 lines 138-150:
the session token captured by the enclosing closure, the canvas dimensions,
and the encoding MIME type and quality passed to `canvas.toBlob`. -/
structure Capture where
  sessionToken : Nat
  width : Nat
  height : Nat
  mime : String
  quality : ℚ
  deriving DecidableEq, Repr

/-- A frame forwarded to a remote session: which session's stream receives it
(`sessionPromise` is the promise of the session identified by the closure's
token) and the MIME tag of the payload. -/
structure SentFrame where
  targetSession : Nat
  mime : String
  deriving DecidableEq, Repr

/-- One tick of the 500 ms frame-sampler timer (part_000 lines 133-152):
return early when the captured token is no longer active or an element ref is
gone; otherwise, when the video has data (`readyState >= 2`), size the canvas
to 320x240, draw the current frame, and start one JPEG encode at quality 0.5.
The returned value is the capture started, if any. -/
def frameTick (inp : TickInput) : Option Capture :=
  if inp.activeToken = some inp.sessionToken ∧ inp.hasVideo ∧ inp.hasCanvas then
    if 2 ≤ inp.readyState then
      some ⟨inp.sessionToken, 320, 240, "image/jpeg", 1 / 2⟩
    else none
  else none

/-- Completion of an in-flight capture (part_000 lines 141-149): when the
blob materialised, read it as base64 and forward
`{ data, mimeType: 'image/jpeg' }` to the capture's own `sessionPromise`.
The continuation performs no comparison against the currently active token,
so `activeToken` is accepted but never consulted. -/
def captureComplete (_activeToken : Option Nat) (cap : Capture) (blobOk : Bool) :
    Option SentFrame :=
  if blobOk then some ⟨cap.sessionToken, "image/jpeg"⟩ else none

/-! ## Transcript language-tag handling (claims C6, C10) -/

theorem parseLang_of_no_tag (t : List Char) (h : hasLangTag t = false) :
    parseLang t = (none, t) := by
  unfold parseLang
  split
  · rename_i a b rest
    simp only [hasLangTag, Bool.and_eq_false_iff] at h
    rcases h with h | h <;> simp [h]
  · rfl

/-- C6: an inbound transcript delta beginning with a two-uppercase-letter
code in square brackets records that code as the detected language
(overwriting the previous value) and appends only the remainder — the tag and
any following whitespace stripped — to the transcript accumulator. -/
theorem c6_language_tag (s : VoiceState) (tok : Nat) (now : ℚ) (a b : Char)
    (rest : List Char) (htok : s.activeToken = some tok)
    (ha : jsUpper a = true) (hb : jsUpper b = true) :
    (step s (Event.onMessage tok now
      ⟨some ('[' :: a :: b :: ']' :: rest), none, false, none, false⟩)).detectedLang
      = [a, b] ∧
    (step s (Event.onMessage tok now
      ⟨some ('[' :: a :: b :: ']' :: rest), none, false, none, false⟩)).inputTranscript
      = s.inputTranscript ++ rest.dropWhile jsSpace := by
  simp [step, htok, handleMessage, applyInputDelta, applyOutputDelta,
    applyTurnComplete, applyAudioChunk, applyInterrupted, parseLang, ha, hb]

/-- Witness for C6: the delta `"[FR] Bonjour"` on a live session sets the
detected language to `FR` and appends exactly `"Bonjour"`. -/
theorem c6_language_tag_witness :
    ({ initialState with activeToken := some 7 } : VoiceState).activeToken = some 7 ∧
    jsUpper 'F' = true ∧ jsUpper 'R' = true ∧
    (step { initialState with activeToken := some 7 }
      (Event.onMessage 7 0
        ⟨some ['[', 'F', 'R', ']', ' ', 'B', 'o', 'n', 'j', 'o', 'u', 'r'],
          none, false, none, false⟩)).detectedLang = ['F', 'R'] ∧
    (step { initialState with activeToken := some 7 }
      (Event.onMessage 7 0
        ⟨some ['[', 'F', 'R', ']', ' ', 'B', 'o', 'n', 'j', 'o', 'u', 'r'],
          none, false, none, false⟩)).inputTranscript
      = ['B', 'o', 'n', 'j', 'o', 'u', 'r'] := by
  have h := c6_language_tag { initialState with activeToken := some 7 } 7 0 'F' 'R'
    [' ', 'B', 'o', 'n', 'j', 'o', 'u', 'r'] rfl rfl rfl
  refine ⟨rfl, rfl, rfl, h.1, ?_⟩
  rw [h.2]
  decide

/-- C10: a transcript delta that does not begin with an opening bracket, two
uppercase ASCII letters and a closing bracket passes through `parseLang`
unchanged: the detected language keeps its previous value and the delta is
appended to the transcript verbatim. -/
theorem c10_no_tag (s : VoiceState) (tok : Nat) (now : ℚ) (t : List Char)
    (htok : s.activeToken = some tok) (h : hasLangTag t = false) :
    parseLang t = (none, t) ∧
    (step s (Event.onMessage tok now ⟨some t, none, false, none, false⟩)).detectedLang
      = s.detectedLang ∧
    (step s (Event.onMessage tok now ⟨some t, none, false, none, false⟩)).inputTranscript
      = s.inputTranscript ++ t := by
  refine ⟨parseLang_of_no_tag t h, ?_, ?_⟩ <;>
    simp [step, htok, handleMessage, applyInputDelta, applyOutputDelta,
      applyTurnComplete, applyAudioChunk, applyInterrupted, parseLang_of_no_tag t h]

/-- Witness for C10: the lowercase-tagged delta `"[fr] Bonjour"` is left
untouched and does not change the detected language. -/
theorem c10_no_tag_witness :
    ({ initialState with activeToken := some 7 } : VoiceState).activeToken = some 7 ∧
    hasLangTag ['[', 'f', 'r', ']', ' ', 'B'] = false ∧
    parseLang ['[', 'f', 'r', ']', ' ', 'B'] = (none, ['[', 'f', 'r', ']', ' ', 'B']) ∧
    (step { initialState with activeToken := some 7 }
      (Event.onMessage 7 0
        ⟨some ['[', 'f', 'r', ']', ' ', 'B'], none, false, none, false⟩)).detectedLang
      = ['A', 'U', 'T', 'O'] ∧
    (step { initialState with activeToken := some 7 }
      (Event.onMessage 7 0
        ⟨some ['[', 'f', 'r', ']', ' ', 'B'], none, false, none, false⟩)).inputTranscript
      = ['[', 'f', 'r', ']', ' ', 'B'] := by
  have h := c10_no_tag { initialState with activeToken := some 7 } 7 0
    ['[', 'f', 'r', ']', ' ', 'B'] rfl rfl
  refine ⟨rfl, rfl, h.1, ?_, ?_⟩
  · rw [h.2.1]
    rfl
  · rw [h.2.2]
    rfl

/-! ## Status bookkeeping of the message handler -/

theorem applyInputDelta_status (msg : LiveMsg) (s : VoiceState) :
    (applyInputDelta msg s).status = s.status := by
  unfold applyInputDelta
  cases msg.inputTranscription <;> rfl

theorem applyOutputDelta_status (msg : LiveMsg) (s : VoiceState) :
    (applyOutputDelta msg s).status = s.status := by
  unfold applyOutputDelta
  cases msg.outputTranscription <;> rfl

theorem applyTurnComplete_status (msg : LiveMsg) (s : VoiceState) :
    (applyTurnComplete msg s).status = s.status := by
  unfold applyTurnComplete
  cases msg.turnComplete <;> rfl

theorem handleMessage_status (now : ℚ) (msg : LiveMsg) (s : VoiceState) :
    (handleMessage now msg s).status =
      if msg.interrupted then Status.listening
      else if msg.audioChunk.isSome then Status.speaking
      else s.status := by
  unfold handleMessage
  cases hint : msg.interrupted <;> cases haud : msg.audioChunk <;>
    simp [applyInterrupted, applyAudioChunk, hint, haud, applyInputDelta_status,
      applyOutputDelta_status, applyTurnComplete_status]

/-! ## Interruption handling (claim C2) -/

/-- A session state mid-playback: live token 3, one chunk scheduled to start
at output-clock time 5 with duration 2, cursor at 7. -/
def c2State : VoiceState :=
  { initialState with
    activeToken := some 3
    status := Status.speaking
    nextStartTime := 7
    sources := [⟨5, 2, none⟩] }

/-- Counterexample to C2 as stated: the interruption handler of part_000
line 187 assigns `nextStartTime = 0`, not the current output-clock time.
At output-clock time 3 the cursor ends at 0, not 3. -/
theorem c2_counterexample :
    (step c2State (Event.onMessage 3 3 interruptMsg)).nextStartTime = 0 ∧
    (step c2State (Event.onMessage 3 3 interruptMsg)).nextStartTime ≠ 3 := by
  decide

/-- C2 (amended): an interruption received on the live session stops every
active playback handle immediately, empties the Active Source Set, resets the
cursor `nextStartTime` to 0, sets status to listening, and no chunk that was
scheduled but had not yet started at the interruption time produces any
audio. -/
theorem c2_interruption (s : VoiceState) (tok : Nat) (now : ℚ)
    (htok : s.activeToken = some tok) :
    (step s (Event.onMessage tok now interruptMsg)).sources = [] ∧
    (step s (Event.onMessage tok now interruptMsg)).nextStartTime = 0 ∧
    (step s (Event.onMessage tok now interruptMsg)).status = Status.listening ∧
    (step s (Event.onMessage tok now interruptMsg)).flushed
      = s.flushed ++ s.sources.map (stopAt now) ∧
    ∀ n ∈ s.sources, now ≤ n.startTime → ¬ audible (stopAt now n) := by
  refine ⟨?_, ?_, ?_, ?_, ?_⟩
  · simp [step, htok, handleMessage, interruptMsg, applyInputDelta, applyOutputDelta,
      applyTurnComplete, applyAudioChunk, applyInterrupted]
  · simp [step, htok, handleMessage, interruptMsg, applyInputDelta, applyOutputDelta,
      applyTurnComplete, applyAudioChunk, applyInterrupted]
  · simp [step, htok, handleMessage, interruptMsg, applyInputDelta, applyOutputDelta,
      applyTurnComplete, applyAudioChunk, applyInterrupted]
  · simp [step, htok, handleMessage, interruptMsg, applyInputDelta, applyOutputDelta,
      applyTurnComplete, applyAudioChunk, applyInterrupted]
  · intro n _ hle
    simp [audible, stopAt]
    exact hle

/-- Witness for C2 (amended), on the concrete mid-playback state `c2State`
interrupted at output-clock time 1: the not-yet-started chunk scheduled for
time 5 is stopped before it starts and is inaudible. -/
theorem c2_interruption_witness :
    c2State.activeToken = some 3 ∧
    (step c2State (Event.onMessage 3 1 interruptMsg)).sources = [] ∧
    (step c2State (Event.onMessage 3 1 interruptMsg)).nextStartTime = 0 ∧
    (step c2State (Event.onMessage 3 1 interruptMsg)).status = Status.listening ∧
    (step c2State (Event.onMessage 3 1 interruptMsg)).flushed
      = c2State.flushed ++ c2State.sources.map (stopAt 1) ∧
    ¬ audible (stopAt 1 ⟨5, 2, none⟩) := by
  have h := c2_interruption c2State 3 1 rfl
  exact ⟨rfl, h.1, h.2.1, h.2.2.1, h.2.2.2.1,
    h.2.2.2.2 ⟨5, 2, none⟩ (by decide) (by norm_num)⟩

/-! ## Session lifecycle guard (claims C3, C8) -/

/-- A state right after a second `connect()` has installed session token 2. -/
def c3State : VoiceState :=
  { initialState with activeToken := some 2, status := Status.listening }

/-- Counterexample to C3 as stated: the `onerror` callback (part_000
line 191) performs no token comparison, so a stale error callback registered
against superseded session 1 still mutates state — it flips the status of the
live session 2 to error. -/
theorem c3_counterexample :
    c3State.activeToken ≠ some 1 ∧
    step c3State (Event.onError 1) ≠ c3State ∧
    (step c3State (Event.onError 1)).status = Status.error := by
  decide

/-- C3 (amended): a second `connect()` leaves exactly one active session —
the new token replaces the old one and the prior session's media stream and
audio contexts are torn down — and the `onopen` and `onmessage` callbacks
compare their captured token against the active one and are complete no-ops
on mismatch; the `onerror` callback, however, carries no such guard and sets
status to error regardless of its token. -/
theorem c3_lifecycle (s : VoiceState) (now : ℚ) (tok2 tok : Nat) (msg : LiveMsg)
    (hne : s.activeToken ≠ some tok) :
    (connectStart now s tok2).activeToken = some tok2 ∧
    (connectStart now s tok2).mediaStream = none ∧
    (connectStart now s tok2).inputCtx = none ∧
    (connectStart now s tok2).outputCtx = none ∧
    (connectStart now s tok2).sources = [] ∧
    step s (Event.onOpen tok) = s ∧
    step s (Event.onMessage tok now msg) = s ∧
    (step s (Event.onError tok)).status = Status.error := by
  refine ⟨rfl, rfl, rfl, rfl, rfl, ?_, ?_, rfl⟩ <;> simp [step, hne]

/-- Witness for C3 (amended): concrete second-session state with a stale
token-1 callback arriving afterwards. -/
theorem c3_lifecycle_witness :
    c3State.activeToken ≠ some 1 ∧
    (connectStart 5 c3State 9).activeToken = some 9 ∧
    step c3State (Event.onOpen 1) = c3State ∧
    step c3State (Event.onMessage 1 5 (audioMsg 2)) = c3State ∧
    (step c3State (Event.onError 1)).status = Status.error := by
  have h := c3_lifecycle c3State 5 9 1 (audioMsg 2) (by decide)
  exact ⟨by decide, h.1, h.2.2.2.2.2.1, h.2.2.2.2.2.2.1, h.2.2.2.2.2.2.2⟩

/-- C8: `cleanup()` is idempotent — a second call right after a first one
changes nothing — its result always has a null active token, no media
stream, an empty Active Source Set, no audio contexts and a disconnected
flag, and calling it when no session is active (the pristine initial state)
is a no-op. -/
theorem c8_cleanup_idempotent (s : VoiceState) (n1 n2 : ℚ) :
    cleanupState n2 (cleanupState n1 s) = cleanupState n1 s ∧
    (cleanupState n1 s).activeToken = none ∧
    (cleanupState n1 s).mediaStream = none ∧
    (cleanupState n1 s).sources = [] ∧
    (cleanupState n1 s).inputCtx = none ∧
    (cleanupState n1 s).outputCtx = none ∧
    (cleanupState n1 s).isConnected = false ∧
    cleanupState n1 initialState = initialState := by
  refine ⟨?_, rfl, rfl, rfl, rfl, rfl, rfl, by simp [cleanupState, initialState]⟩
  cases s with
  | mk tok st conn ic oc ms fi ts src fl nst dl it ot =>
    cases fi <;> simp [cleanupState, List.filter_filter]

/-! ## Terminality of the error status (claim C5) -/

/-- A live session (token 4) that has entered the error status while one
scheduled chunk is still in the Active Source Set. -/
def c5State : VoiceState :=
  { initialState with
    activeToken := some 4
    status := Status.error
    sources := [⟨0, 1, none⟩] }

/-- Counterexample to C5 as stated: after a stream error, a `source.onended`
callback of the same session that empties the Active Source Set (part_000
lines 176-179) overwrites the error status with listening — error is not
terminal under subsequent events. -/
theorem c5_counterexample :
    c5State.status = Status.error ∧
    (step c5State (Event.sourceEnded 0)).status = Status.listening ∧
    (step c5State (Event.sourceEnded 0)).status ≠ Status.error := by
  decide

/-- C5 (amended): once the status is error it stays error exactly under the
events whose handlers perform no status write — further errors, close events,
stale open/message callbacks, transcript-only or turn-complete messages, and
source-ended callbacks that leave the Active Source Set non-empty.  It is
overwritten by a live audio chunk (to speaking), a live interruption or open
callback (to listening), or a source-ended callback that empties the set (to
listening); an explicit `connect()` resets it to connecting. -/
theorem c5_error_terminality (s : VoiceState) (e : Event)
    (h : s.status = Status.error) :
    ((step s e).status = Status.error ↔ overridesError s e = false) ∧
    (connectStart 0 s 0).status = Status.connecting := by
  refine ⟨?_, rfl⟩
  cases e with
  | onOpen tok =>
      by_cases htok : s.activeToken = some tok <;>
        simp [step, overridesError, htok, h]
  | onMessage tok now msg =>
      by_cases htok : s.activeToken = some tok
      · simp only [step, if_pos htok, overridesError, htok, beq_self_eq_true,
          Bool.true_and, handleMessage_status]
        cases hint : msg.interrupted <;> cases haud : msg.audioChunk <;>
          simp [handleMessage_status, hint, haud, h]
      · simp [step, overridesError, htok, h]
  | onError tok => simp [step, overridesError]
  | onClose tok => simp [step, overridesError, h]
  | sourceEnded i =>
      by_cases he : (s.sources.eraseIdx i).isEmpty <;>
        simp [step, overridesError, he, h]

/-- Witness for C5 (amended): on the concrete errored state, a close event
writes no status and the error persists. -/
theorem c5_error_terminality_witness :
    c5State.status = Status.error ∧
    ((step c5State (Event.onClose 4)).status = Status.error ↔
      overridesError c5State (Event.onClose 4) = false) ∧
    (connectStart 0 c5State 0).status = Status.connecting :=
  ⟨rfl, (c5_error_terminality c5State (Event.onClose 4) rfl).1,
    (c5_error_terminality c5State (Event.onClose 4) rfl).2⟩

/-! ## Playback scheduling (claim C1) -/

theorem step_audioMsg (s : VoiceState) (tok : Nat) (now d : ℚ)
    (htok : s.activeToken = some tok) :
    step s (Event.onMessage tok now (audioMsg d)) =
      { s with
        status := Status.speaking
        nextStartTime := max s.nextStartTime now + d
        sources := s.sources ++ [⟨max s.nextStartTime now, d, none⟩] } := by
  simp [step, htok, handleMessage, audioMsg, applyInputDelta, applyOutputDelta,
    applyTurnComplete, applyAudioChunk, applyInterrupted]

theorem playAudioRun_sources :
    ∀ (chunks : List (ℚ × ℚ)) (s : VoiceState) (tok : Nat),
      s.activeToken = some tok →
      (playAudioRun tok s chunks).sources
        = s.sources ++ scheduleSources s.nextStartTime chunks
  | [], s, tok, _ => by simp [playAudioRun, scheduleSources]
  | c :: rest, s, tok, h => by
      have hstep := step_audioMsg s tok c.1 c.2 h
      have ih := playAudioRun_sources rest
        { s with
          status := Status.speaking
          nextStartTime := max s.nextStartTime c.1 + c.2
          sources := s.sources ++ [⟨max s.nextStartTime c.1, c.2, none⟩] } tok h
      show (playAudioRun tok (step s (Event.onMessage tok c.1 (audioMsg c.2))) rest).sources = _
      rw [hstep, ih]
      simp [scheduleSources]

theorem scheduleSources_length (next : ℚ) (chunks : List (ℚ × ℚ)) :
    (scheduleSources next chunks).length = chunks.length := by
  induction chunks generalizing next with
  | nil => rfl
  | cons c rest ih => simp [scheduleSources, ih]

theorem scheduleSources_adjacent :
    ∀ (next : ℚ) (chunks : List (ℚ × ℚ)) (k : Nat), k + 1 < chunks.length →
      (((scheduleSources next chunks).getD (k + 1) ⟨0, 0, none⟩).startTime ≥
        ((scheduleSources next chunks).getD k ⟨0, 0, none⟩).startTime +
          ((scheduleSources next chunks).getD k ⟨0, 0, none⟩).duration) ∧
      ((chunks.getD (k + 1) (0, 0)).1 ≤
          ((scheduleSources next chunks).getD k ⟨0, 0, none⟩).startTime +
            ((scheduleSources next chunks).getD k ⟨0, 0, none⟩).duration →
        ((scheduleSources next chunks).getD (k + 1) ⟨0, 0, none⟩).startTime =
          ((scheduleSources next chunks).getD k ⟨0, 0, none⟩).startTime +
            ((scheduleSources next chunks).getD k ⟨0, 0, none⟩).duration)
  | _, [], k, h => by simp at h
  | _, [_], k, h => by simp at h
  | next, c1 :: c2 :: rest, 0, _ => by
      refine ⟨?_, ?_⟩
      · simp only [scheduleSources, List.getD_cons_succ, List.getD_cons_zero]
        exact le_max_left (max next c1.1 + c1.2) c2.1
      · intro hle
        simp only [scheduleSources, List.getD_cons_succ, List.getD_cons_zero] at hle ⊢
        exact max_eq_left hle
  | next, c1 :: c2 :: rest, k + 1, h => by
      have ih := scheduleSources_adjacent (max next c1.1 + c1.2) (c2 :: rest) k
        (by simpa using h)
      simpa [scheduleSources, List.getD_cons_succ] using ih

/-- C1: feeding a chunk sequence to the live session, each chunk `k+1` is
scheduled to start no earlier than chunk `k`'s start plus chunk `k`'s
duration (no overlap), and exactly at that time whenever chunk `k+1` is
handled at an output-clock time not past it (no gap): the cursor advances
independently of arrival times. -/
theorem c1_playback_scheduler (s : VoiceState) (tok : Nat)
    (chunks : List (ℚ × ℚ)) (k : Nat) (htok : s.activeToken = some tok)
    (hsrc : s.sources = []) (hk : k + 1 < chunks.length) :
    (((playAudioRun tok s chunks).sources.getD (k + 1) ⟨0, 0, none⟩).startTime ≥
      ((playAudioRun tok s chunks).sources.getD k ⟨0, 0, none⟩).startTime +
        ((playAudioRun tok s chunks).sources.getD k ⟨0, 0, none⟩).duration) ∧
    ((chunks.getD (k + 1) (0, 0)).1 ≤
        ((playAudioRun tok s chunks).sources.getD k ⟨0, 0, none⟩).startTime +
          ((playAudioRun tok s chunks).sources.getD k ⟨0, 0, none⟩).duration →
      ((playAudioRun tok s chunks).sources.getD (k + 1) ⟨0, 0, none⟩).startTime =
        ((playAudioRun tok s chunks).sources.getD k ⟨0, 0, none⟩).startTime +
          ((playAudioRun tok s chunks).sources.getD k ⟨0, 0, none⟩).duration) := by
  have hb := playAudioRun_sources chunks s tok htok
  rw [hsrc, List.nil_append] at hb
  rw [hb]
  exact scheduleSources_adjacent s.nextStartTime chunks k hk

/-- A freshly opened session for the scheduling witness. -/
def c1State : VoiceState :=
  { initialState with activeToken := some 0 }

/-- Three chunks: handled at clock times 0, 5 and 6 with durations 1, 2
and 3.  The third arrives while the second is still playing. -/
def c1Chunks : List (ℚ × ℚ) :=
  [(0, 1), (5, 2), (6, 3)]

/-- Witness for C1: on the concrete run, chunk 2 (arriving at clock time 6,
before chunk 1's scheduled end 5 + 2 = 7) starts exactly at 7. -/
theorem c1_playback_scheduler_witness :
    c1State.activeToken = some 0 ∧ c1State.sources = [] ∧
    1 + 1 < c1Chunks.length ∧
    ((((playAudioRun 0 c1State c1Chunks).sources.getD 2 ⟨0, 0, none⟩).startTime ≥
      ((playAudioRun 0 c1State c1Chunks).sources.getD 1 ⟨0, 0, none⟩).startTime +
        ((playAudioRun 0 c1State c1Chunks).sources.getD 1 ⟨0, 0, none⟩).duration) ∧
    ((c1Chunks.getD 2 (0, 0)).1 ≤
        ((playAudioRun 0 c1State c1Chunks).sources.getD 1 ⟨0, 0, none⟩).startTime +
          ((playAudioRun 0 c1State c1Chunks).sources.getD 1 ⟨0, 0, none⟩).duration →
      ((playAudioRun 0 c1State c1Chunks).sources.getD 2 ⟨0, 0, none⟩).startTime =
        ((playAudioRun 0 c1State c1Chunks).sources.getD 1 ⟨0, 0, none⟩).startTime +
          ((playAudioRun 0 c1State c1Chunks).sources.getD 1 ⟨0, 0, none⟩).duration)) :=
  ⟨rfl, rfl, by decide,
    c1_playback_scheduler c1State 0 c1Chunks 1 rfl rfl (by decide)⟩

/-! ## PCM16 encode/decode round trip (claim C4) -/

theorem toInt16_eq_self (n : ℤ) (h1 : -32768 ≤ n) (h2 : n ≤ 32767) :
    toInt16 n = n := by
  unfold toInt16
  omega

theorem toInt16_range (n : ℤ) : -32768 ≤ toInt16 n ∧ toInt16 n ≤ 32767 := by
  unfold toInt16
  omega

theorem bytesToInt16_int16ToBytes (n : ℤ) (h1 : -32768 ≤ n) (h2 : n ≤ 32767) :
    bytesToInt16 (n % 256).toNat (n % 65536 / 256).toNat = n := by
  unfold bytesToInt16
  split <;> omega

theorem decodePCM_encodeFrame (frame : List ℚ) :
    decodePCM (encodeFrame frame)
      = frame.map (fun v => ((encodeSample v : ℤ) : ℚ) / 32768) := by
  induction frame with
  | nil => rfl
  | cons v rest ih =>
      have hrange := toInt16_range (jsTrunc (v * 32767))
      have hb := bytesToInt16_int16ToBytes (encodeSample v) hrange.1 hrange.2
      simp only [encodeFrame, List.map_cons, List.flatMap_cons] at ih ⊢
      simp only [int16ToBytes, List.cons_append, List.nil_append, decodePCM]
      rw [hb]
      exact congrArg (List.cons _) ih

theorem encodeSample_close (v : ℚ) (h1 : -1 ≤ v) (h2 : v ≤ 1) :
    |v - ((encodeSample v : ℤ) : ℚ) / 32768| < 1 / 16384 := by
  have hx1 : v * 32767 ≤ 32767 := by nlinarith
  have hx2 : -32767 ≤ v * 32767 := by nlinarith
  unfold encodeSample jsTrunc
  split
  · rename_i hpos
    have hfl : ((⌊v * 32767⌋ : ℤ) : ℚ) ≤ v * 32767 := Int.floor_le _
    have hfl2 : v * 32767 - 1 < ((⌊v * 32767⌋ : ℤ) : ℚ) := Int.sub_one_lt_floor _
    have hl : (0 : ℤ) ≤ ⌊v * 32767⌋ := Int.floor_nonneg.mpr hpos
    have hu : ⌊v * 32767⌋ ≤ 32767 := by exact_mod_cast hfl.trans hx1
    rw [toInt16_eq_self _ (by omega) hu, abs_lt]
    constructor <;> linarith
  · rename_i hneg
    have hce : v * 32767 ≤ ((⌈v * 32767⌉ : ℤ) : ℚ) := Int.le_ceil _
    have hce2 : ((⌈v * 32767⌉ : ℤ) : ℚ) < v * 32767 + 1 := Int.ceil_lt_add_one _
    have hu : ⌈v * 32767⌉ ≤ 0 :=
      Int.ceil_le.mpr (by exact_mod_cast le_of_lt (not_le.mp hneg))
    have hl : (-32767 : ℤ) ≤ ⌈v * 32767⌉ := by
      have : (-32767 : ℚ) ≤ ((⌈v * 32767⌉ : ℤ) : ℚ) := le_trans hx2 hce
      exact_mod_cast this
    rw [toInt16_eq_self _ (by omega) (by omega), abs_lt]
    constructor <;> linarith

/-- Counterexample to C4 as stated: the sample `65533/65536` (representable
exactly in the capture's float format) encodes to the Int16 value 32765 —
`65533/65536 * 32767 = 32765.50005...` truncates to 32765 — and decodes to
`32765/32768`, an error of `3/65536`, which exceeds one quantization step
`1/32768 = 2/65536`. -/
theorem c4_counterexample :
    (-1 : ℚ) ≤ 65533 / 65536 ∧ (65533 / 65536 : ℚ) ≤ 1 ∧
    (decodePCM (encodeFrame [65533 / 65536])).getD 0 0 = 32765 / 32768 ∧
    ¬ |(65533 / 65536 : ℚ) - (decodePCM (encodeFrame [65533 / 65536])).getD 0 0|
      ≤ 1 / 32768 := by
  have hfloor : ⌊(65533 / 65536 : ℚ) * 32767⌋ = 32765 := by
    rw [show (65533 / 65536 : ℚ) * 32767 = 2147319811 / 65536 by norm_num]
    norm_num
  have henc : encodeSample (65533 / 65536) = 32765 := by
    unfold encodeSample jsTrunc
    rw [if_pos (by norm_num), hfloor]
    decide
  have hdec : (decodePCM (encodeFrame [65533 / 65536])).getD 0 0 = 32765 / 32768 := by
    rw [decodePCM_encodeFrame]
    simp only [List.map_cons, List.map_nil, List.getD_cons_zero, henc]
    norm_num
  refine ⟨by norm_num, by norm_num, hdec, ?_⟩
  rw [hdec]
  rw [abs_le]
  norm_num

/-- C4 (amended): for a capture frame with all samples in `[-1, 1]`, encoding
to PCM16 (scale by 32767, truncate, wrap) and decoding back (divide by 32768)
reproduces each sample to within two quantization steps — the error is
strictly below `2/32768 = 1/16384` (and can exceed `1/32768`, see the
counterexample), with the float arithmetic modelled exactly over `ℚ`. -/
theorem c4_pcm_roundtrip (frame : List ℚ) (i : Nat) (hi : i < frame.length)
    (hall : ∀ v ∈ frame, -1 ≤ v ∧ v ≤ 1) :
    |frame.getD i 0 - (decodePCM (encodeFrame frame)).getD i 0| < 1 / 16384 := by
  rw [decodePCM_encodeFrame]
  have hlen : i < (frame.map (fun v => ((encodeSample v : ℤ) : ℚ) / 32768)).length := by
    simpa using hi
  rw [List.getD_eq_getElem _ _ hi, List.getD_eq_getElem _ _ hlen, List.getElem_map]
  have hv := hall (frame[i]) (List.getElem_mem hi)
  exact encodeSample_close _ hv.1 hv.2

/-- Witness for C4 (amended) at the one-sample frame `[1/2]`. -/
theorem c4_pcm_roundtrip_witness :
    |([(1 : ℚ) / 2]).getD 0 0 - (decodePCM (encodeFrame [(1 : ℚ) / 2])).getD 0 0|
      < 1 / 16384 :=
  c4_pcm_roundtrip [(1 : ℚ) / 2] 0 (by decide) (by norm_num)

/-! ## Video frame sampler (claim C7) -/

/-- Counterexample to C7 as stated: an in-flight capture of session 1 whose
JPEG encoding completes after session 2 has taken over is still forwarded
(the `toBlob`/`FileReader` continuation of part_000 lines 141-149 never
re-checks the token), not discarded. -/
theorem c7_counterexample :
    (some 2 : Option Nat) ≠ some 1 ∧
    captureComplete (some 2) ⟨1, 320, 240, "image/jpeg", 1 / 2⟩ true
      = some ⟨1, "image/jpeg"⟩ ∧
    captureComplete (some 2) ⟨1, 320, 240, "image/jpeg", 1 / 2⟩ true ≠ none := by
  decide

/-- C7 (amended): a timer tick on the current session with mounted elements
and a ready video starts exactly one capture, downscaled to 320x240 and
encoded as JPEG at quality 0.5; a tick after the session is superseded starts
none; but a capture already in flight when the session is superseded is still
completed and forwarded — to its own (superseded) session's stream, tagged
`image/jpeg`, irrespective of the currently active token. -/
theorem c7_frame_sampler (inp stale : TickInput) (act : Option Nat) (cap : Capture)
    (hcur : inp.activeToken = some inp.sessionToken) (hv : inp.hasVideo = true)
    (hc : inp.hasCanvas = true) (hr : 2 ≤ inp.readyState)
    (hstale : stale.activeToken ≠ some stale.sessionToken) :
    frameTick inp = some ⟨inp.sessionToken, 320, 240, "image/jpeg", 1 / 2⟩ ∧
    frameTick stale = none ∧
    captureComplete act cap true = some ⟨cap.sessionToken, "image/jpeg"⟩ := by
  refine ⟨?_, ?_, rfl⟩
  · simp [frameTick, hcur, hv, hc, hr]
  · simp [frameTick, hstale]

/-- Witness for C7 (amended): session 3 live, session 9 having taken over for
the stale tick, and a session-3 capture completing while session 9 is
active. -/
theorem c7_frame_sampler_witness :
    frameTick ⟨some 3, 3, true, true, 4⟩ = some ⟨3, 320, 240, "image/jpeg", 1 / 2⟩ ∧
    frameTick ⟨some 9, 3, true, true, 4⟩ = none ∧
    captureComplete (some 9) ⟨3, 320, 240, "image/jpeg", 1 / 2⟩ true
      = some ⟨3, "image/jpeg"⟩ :=
  c7_frame_sampler ⟨some 3, 3, true, true, 4⟩ ⟨some 9, 3, true, true, 4⟩ (some 9)
    ⟨3, 320, 240, "image/jpeg", 1 / 2⟩ rfl rfl rfl (by norm_num) (by decide)

/-! ## Base64 round trip (claim C9) -/

theorem b64Index_b64Char_fin : ∀ n : Fin 64, b64Index (b64Char n.val) = n.val := by
  decide

theorem b64Char_ne_pad_fin : ∀ n : Fin 64, b64Char n.val ≠ '=' := by
  decide

theorem b64Index_b64Char (k : ℕ) (h : k < 64) : b64Index (b64Char k) = k :=
  b64Index_b64Char_fin ⟨k, h⟩

theorem b64Char_ne_pad (k : ℕ) (h : k < 64) : b64Char k ≠ '=' :=
  b64Char_ne_pad_fin ⟨k, h⟩

/-- C9: decoding the base64 encoding of any byte array returns the identical
byte array. -/
theorem c9_base64_roundtrip : ∀ (l : List ℕ), (∀ x ∈ l, x < 256) →
    decodeBase64 (encodeBase64 l) = l
  | [], _ => rfl
  | [a], h => by
      have ha : a < 256 := h a (by simp)
      simp only [encodeBase64, decodeBase64, if_true]
      rw [b64Index_b64Char _ (by omega), b64Index_b64Char _ (by omega)]
      simp only [List.cons.injEq, and_true]
      omega
  | [a, b], h => by
      have ha : a < 256 := h a (by simp)
      have hb : b < 256 := h b (by simp)
      simp only [encodeBase64, decodeBase64, if_true]
      rw [if_neg (b64Char_ne_pad _ (by omega))]
      rw [b64Index_b64Char _ (by omega), b64Index_b64Char _ (by omega),
        b64Index_b64Char _ (by omega)]
      simp only [List.cons.injEq, and_true]
      omega
  | a :: b :: c :: rest, h => by
      have ha : a < 256 := h a (by simp)
      have hb : b < 256 := h b (by simp)
      have hc : c < 256 := h c (by simp)
      have ih := c9_base64_roundtrip rest (fun x hx => h x (by simp [hx]))
      simp only [encodeBase64, decodeBase64]
      rw [if_neg (b64Char_ne_pad _ (by omega)), if_neg (b64Char_ne_pad _ (by omega))]
      rw [b64Index_b64Char _ (by omega), b64Index_b64Char _ (by omega),
        b64Index_b64Char _ (by omega), b64Index_b64Char _ (by omega)]
      rw [ih]
      simp only [List.cons.injEq, and_true]
      omega

/-- Witness for C9 on a concrete byte array exercising a padded final
group. -/
theorem c9_base64_roundtrip_witness :
    decodeBase64 (encodeBase64 [0, 255, 77, 1]) = [0, 255, 77, 1] :=
  c9_base64_roundtrip [0, 255, 77, 1] (by decide)

end KaalBot
